import Mathlib

/-!
Verification of the MQTT router experiment: a shallow embedding of the
router, its route table, the example handler and the connection poll loop,
together with theorems about registration, dispatch and loop termination.

The embedding models:
* the delivery-guarantee levels (`QoS` in the source);
* the calls a handler makes on the shared client (`ClientAction`);
* handlers (`MqttHandler`): the trait exposes `call_async`, the static
  `path()` and the static `subscribe(client)`; a handler value is embedded
  as its path, the behaviour of its subscribe body (which may panic, as the
  shipped handler unwraps the client call) and the client calls made by
  `call_async`;
* the router (`MqttRouter`) whose `routes` field is an `IndexMap` from
  topic string to boxed handler; the `IndexMap` operations used by the
  source (`insert`, `get`) are embedded on association lists with the
  `IndexMap` semantics: `insert` on a present key replaces the value in
  place and keeps its position, on an absent key appends at the end; `get`
  finds the entry whose key is equal to the probe;
* the connection poll loop of `main` as a step function on a loop state
  holding the shared router, the set of spawned dispatch tasks and a
  polling / terminated status; an `Err` poll result makes `main` return
  `Ok(())`, which is process exit code 0.
-/

/-- Delivery-guarantee levels, from `rumqttc::QoS`. -/
inductive QoS where
  | AtMostOnce
  | AtLeastOnce
  | ExactlyOnce
deriving DecidableEq, Repr

/-- A call a handler makes on the shared `AsyncClient`: a publish with
topic, delivery level, retain flag and payload, or a subscribe with topic
and delivery level. -/
inductive ClientAction where
  | publish (topic : String) (qos : QoS) (retain : Bool) (payload : String)
  | subscribe (topic : String) (qos : QoS)
deriving DecidableEq, Repr

/-- Is this client action a publish? -/
def ClientAction.isPublish : ClientAction → Bool
  | .publish _ _ _ _ => true
  | .subscribe _ _ => false

/-- Embedding of a value implementing the `MqttHandler` trait.

`hid` identifies the handler value (two registered handlers are different
values even when their behaviour coincides).  `path` is the static
`path()` of the implementing type.  `subscribeRun` is the body of the
static `subscribe(client)`: given which topics the broker accepts for
subscription, it returns `some` of the client calls it made when it
returns normally, and `none` when it panics (the shipped handler calls
`client.subscribe(..).await.unwrap()`, which panics when the broker
rejects).  `callActions` is the list of client calls performed by
`call_async`. -/
structure MqttHandler where
  hid : Nat
  path : String
  subscribeRun : (String → Bool) → Option (List ClientAction)
  callActions : List ClientAction

/-- `IndexMap::insert` on an association list: when the key is already
present, the entry keeps its position and its value is replaced; when it
is absent, the new entry is appended at the end. -/
def indexMapInsert : List (String × MqttHandler) → String → MqttHandler →
    List (String × MqttHandler)
  | [], k, v => [(k, v)]
  | p :: rest, k, v =>
      if p.1 = k then (p.1, v) :: rest else p :: indexMapInsert rest k v

/-- `IndexMap::get` on an association list: the value of the entry whose
key equals the probe, if any. -/
def indexMapGet : List (String × MqttHandler) → String → Option MqttHandler
  | [], _ => none
  | p :: rest, k => if p.1 = k then some p.2 else indexMapGet rest k

/-- The router: owns the route table, an `IndexMap` from topic string to
boxed handler (`MqttRouter` in the source). -/
structure MqttRouter where
  routes : List (String × MqttHandler)

/-- `MqttRouter::new`: empty route table. -/
def MqttRouter.new : MqttRouter := { routes := [] }

/-- `MqttRouter::add_route`: inserts `(T::path(), handler)` into the route
table, then invokes `T::subscribe(client)` and discards its value
(`let _ = ...`).  `accepts` says which topics the broker accepts for
subscription.  The result is the router state after the insert, paired
with the outcome of the subscribe call (`none` when it panicked; the
insert has happened either way, as it precedes the subscribe call). -/
def MqttRouter.add_route (r : MqttRouter) (accepts : String → Bool)
    (h : MqttHandler) : MqttRouter × Option (List ClientAction) :=
  ({ routes := indexMapInsert r.routes h.path h }, h.subscribeRun accepts)

/-- An observable effect of one `handle_request` call: either the handler
stored for the topic was invoked (recording its identity and the client
calls of its `call_async`), or the `No route found for path` diagnostic
was printed. -/
inductive DispatchEffect where
  | invoked (hid : Nat) (actions : List ClientAction)
  | noRouteNotice (path : String)
deriving DecidableEq, Repr

/-- `MqttRouter::handle_request`: looks the path up in the route table;
when found, invokes the handler's `call_async`; when not found, prints the
diagnostic notice and does nothing else. -/
def MqttRouter.handle_request (r : MqttRouter) (path : String) :
    List DispatchEffect :=
  match indexMapGet r.routes path with
  | some h => [DispatchEffect.invoked h.hid h.callActions]
  | none => [DispatchEffect.noRouteNotice path]

/-- The handler identities of the invocations in a dispatch trace. -/
def invocationsOf (fx : List DispatchEffect) : List Nat :=
  fx.filterMap fun e =>
    match e with
    | .invoked hid _ => some hid
    | .noRouteNotice _ => none

/-- The publish calls performed by the invocations in a dispatch trace. -/
def publishesOf (fx : List DispatchEffect) : List ClientAction :=
  fx.flatMap fun e =>
    match e with
    | .invoked _ acts => acts.filter ClientAction.isPublish
    | .noRouteNotice _ => []

/-- Is this dispatch effect a handler invocation? -/
def DispatchEffect.isHandlerCall : DispatchEffect → Bool
  | .invoked _ _ => true
  | .noRouteNotice _ => false

/-- The shipped `HelloHandler`: `path()` is `hello/world`; `subscribe`
calls `client.subscribe("hello/world", QoS::AtMostOnce).await.unwrap()`,
so it panics exactly when the broker rejects that topic; `call_async`
publishes `Hello back!` on `hello/back` at `QoS::AtLeastOnce`, retain
false. -/
def HelloHandler : MqttHandler where
  hid := 0
  path := "hello/world"
  subscribeRun := fun accepts =>
    if accepts "hello/world" then
      some [ClientAction.subscribe "hello/world" QoS.AtMostOnce]
    else none
  callActions := [ClientAction.publish "hello/back" QoS.AtLeastOnce false "Hello back!"]

/-- A successfully decoded connection event, from `rumqttc::Event`: an
incoming publish packet carrying topic and payload, or any other broker
event (acknowledgments, connection notices, ...), which the loop only
logs. -/
inductive RumqttEvent where
  | incomingPublish (topic : String) (payload : String)
  | otherEvent
deriving DecidableEq, Repr

/-- The result of `eventloop.poll().await`: a decoded event, or a
connection-level error. -/
inductive PollResult where
  | ok (e : RumqttEvent)
  | err (msg : String)
deriving DecidableEq, Repr

/-- One dispatch unit spawned by the loop (`tokio::spawn` of
`router.handle_request(new_client, topic)`).  `result` is `none` while the
unit has not completed and `some trace` once it has run. -/
structure DispatchTask where
  topic : String
  result : Option (List DispatchEffect)
deriving DecidableEq, Repr

/-- The poll loop is either still polling or has terminated. -/
inductive LoopStatus where
  | polling
  | terminated
deriving DecidableEq, Repr

/-- State of `main`'s poll loop: the shared router (behind `Arc`), the
spawned dispatch tasks, the loop status, and the process exit code once
`main` has returned. -/
structure LoopState where
  router : MqttRouter
  tasks : List DispatchTask
  status : LoopStatus
  exitCode : Option Nat

/-- One iteration of `main`'s poll loop on the next poll result.  An
incoming publish spawns a dispatch task for its topic (the payload is not
passed on) and the loop continues at once, without waiting for the task;
any other decoded event is only logged; a connection-level error prints
the error and makes `main` return `Ok(())`, i.e. the process exits with
code 0.  A terminated loop does nothing. -/
def mainLoopStep (s : LoopState) (pr : PollResult) : LoopState :=
  match s.status with
  | LoopStatus.terminated => s
  | LoopStatus.polling =>
    match pr with
    | PollResult.ok (RumqttEvent.incomingPublish topic _payload) =>
        { s with tasks := s.tasks ++ [{ topic := topic, result := none }] }
    | PollResult.ok RumqttEvent.otherEvent => s
    | PollResult.err _ =>
        { s with status := LoopStatus.terminated, exitCode := some 0 }

/-- Run the poll loop over a queue of poll results, in order. -/
def runLoop (s : LoopState) (evs : List PollResult) : LoopState :=
  evs.foldl mainLoopStep s

/-- A scheduler step outside the loop: run the `i`-th spawned dispatch
unit to completion (it executes `router.handle_request` on its topic).
Running an already-completed or non-existent task changes nothing.  The
loop itself never takes this step; it happens concurrently with polling. -/
def completeTask (s : LoopState) (i : Nat) : LoopState :=
  match s.tasks[i]? with
  | none => s
  | some t =>
    match t.result with
    | some _ => s
    | none =>
        { s with
          tasks := s.tasks.set i
            { t with result := some (s.router.handle_request t.topic) } }

/-- The setup phase of `main`, generalised to any list of handlers:
register them in order on a fresh router (the source registers the single
`HelloHandler`). -/
def registerFrom (accepts : String → Bool) (r : MqttRouter)
    (hs : List MqttHandler) : MqttRouter :=
  hs.foldl (fun r h => (r.add_route accepts h).1) r

/-- Registration starting from `MqttRouter::new`, as `main` does. -/
def registerAll (accepts : String → Bool) (hs : List MqttHandler) : MqttRouter :=
  registerFrom accepts MqttRouter.new hs

/-- A concrete handler value used to instantiate theorems: behaves like
the shipped handler shape with a chosen identity and path. -/
def mkTestHandler (n : Nat) (p : String) : MqttHandler where
  hid := n
  path := p
  subscribeRun := fun accepts =>
    if accepts p then some [ClientAction.subscribe p QoS.AtMostOnce] else none
  callActions := []

/-- The loop state of `main` right after setup: `HelloHandler` registered
on a fresh router (with the broker accepting the subscription), no spawned
tasks, loop polling. -/
def mainInitialState : LoopState where
  router := (MqttRouter.new.add_route (fun _ => true) HelloHandler).1
  tasks := []
  status := LoopStatus.polling
  exitCode := none

/-! ### Lemmas about the `IndexMap` operations -/

theorem indexMapGet_insert_self (m : List (String × MqttHandler)) (k : String)
    (v : MqttHandler) : indexMapGet (indexMapInsert m k v) k = some v := by
  induction m with
  | nil => simp [indexMapInsert, indexMapGet]
  | cons p rest ih =>
      by_cases hp : p.1 = k
      · simp [indexMapInsert, indexMapGet, hp]
      · simp [indexMapInsert, indexMapGet, hp, ih]

theorem indexMapGet_insert_other (m : List (String × MqttHandler))
    (k k' : String) (v : MqttHandler) (hne : k' ≠ k) :
    indexMapGet (indexMapInsert m k v) k' = indexMapGet m k' := by
  have hne' : ¬ k = k' := fun h => hne h.symm
  induction m with
  | nil => simp [indexMapInsert, indexMapGet, hne']
  | cons p rest ih =>
      by_cases hp : p.1 = k
      · simp [indexMapInsert, indexMapGet, hp, hne, hne']
      · by_cases hp' : p.1 = k'
        · simp [indexMapInsert, indexMapGet, hp, hp', hne, hne']
        · simp [indexMapInsert, indexMapGet, hp, hp', hne, hne', ih]

theorem indexMapInsert_absent (m : List (String × MqttHandler)) (k : String)
    (v : MqttHandler) (habs : k ∉ m.map Prod.fst) :
    indexMapInsert m k v = m ++ [(k, v)] := by
  induction m with
  | nil => simp [indexMapInsert]
  | cons p rest ih =>
      simp only [List.map_cons, List.mem_cons] at habs
      push_neg at habs
      have h1 : ¬ p.1 = k := fun h => habs.1 h.symm
      simp [indexMapInsert, h1, ih habs.2]

theorem indexMapInsert_keys_present (m : List (String × MqttHandler))
    (k : String) (v : MqttHandler) (hmem : k ∈ m.map Prod.fst) :
    (indexMapInsert m k v).map Prod.fst = m.map Prod.fst := by
  induction m with
  | nil => simp at hmem
  | cons p rest ih =>
      by_cases hp : p.1 = k
      · simp [indexMapInsert, hp]
      · simp only [List.map_cons, List.mem_cons] at hmem
        rcases hmem with hmem | hmem
        · exact absurd hmem.symm hp
        · simp [indexMapInsert, hp, ih hmem]

theorem indexMapInsert_keys (m : List (String × MqttHandler)) (k : String)
    (v : MqttHandler) :
    (indexMapInsert m k v).map Prod.fst =
      if k ∈ m.map Prod.fst then m.map Prod.fst else m.map Prod.fst ++ [k] := by
  by_cases hmem : k ∈ m.map Prod.fst
  · simp [hmem, indexMapInsert_keys_present m k v hmem]
  · simp [hmem, indexMapInsert_absent m k v hmem]

theorem indexMapInsert_length_absent (m : List (String × MqttHandler))
    (k : String) (v : MqttHandler) (habs : k ∉ m.map Prod.fst) :
    (indexMapInsert m k v).length = m.length + 1 := by
  simp [indexMapInsert_absent m k v habs]

theorem indexMapInsert_keys_nodup (m : List (String × MqttHandler))
    (k : String) (v : MqttHandler) (hnd : (m.map Prod.fst).Nodup) :
    ((indexMapInsert m k v).map Prod.fst).Nodup := by
  rw [indexMapInsert_keys]
  by_cases hmem : k ∈ m.map Prod.fst
  · simpa [hmem]
  · simp only [hmem, if_false]
    refine List.Nodup.append hnd (List.nodup_singleton k) ?_
    intro a ha hak
    rw [List.mem_singleton] at hak
    exact hmem (hak ▸ ha)

theorem indexMapInsert_unique_value (m : List (String × MqttHandler))
    (k : String) (v : MqttHandler) (hnd : (m.map Prod.fst).Nodup) :
    ∀ p ∈ indexMapInsert m k v, p.1 = k → p.2 = v := by
  induction m with
  | nil =>
      intro p hp _
      simp only [indexMapInsert, List.mem_singleton] at hp
      simp [hp]
  | cons q rest ih =>
      simp only [List.map_cons, List.nodup_cons] at hnd
      intro p hp hpk
      by_cases hq : q.1 = k
      · simp only [indexMapInsert, hq, if_true, List.mem_cons] at hp
        rcases hp with hp | hp
        · simp [hp]
        · have hmem : q.1 ∈ List.map Prod.fst rest := by
            rw [hq, ← hpk]
            exact List.mem_map_of_mem Prod.fst hp
          exact absurd hmem hnd.1
      · simp only [indexMapInsert, hq, if_false, List.mem_cons] at hp
        rcases hp with hp | hp
        · rw [hp] at hpk
          exact absurd hpk hq
        · exact ih hnd.2 p hp hpk

theorem indexMapGet_eq_none_iff (m : List (String × MqttHandler)) (k : String) :
    indexMapGet m k = none ↔ ∀ p ∈ m, p.1 ≠ k := by
  induction m with
  | nil => simp [indexMapGet]
  | cons p rest ih =>
      by_cases hp : p.1 = k
      · simp [indexMapGet, hp]
      · simp [indexMapGet, hp, ih]

theorem indexMapGet_isSome_iff (m : List (String × MqttHandler)) (k : String) :
    (∃ v, indexMapGet m k = some v) ↔ ∃ p ∈ m, p.1 = k := by
  induction m with
  | nil => simp [indexMapGet]
  | cons p rest ih =>
      by_cases hp : p.1 = k
      · simp [indexMapGet, hp]
      · simp only [indexMapGet, hp, if_false, List.mem_cons]
        rw [ih]
        constructor
        · rintro ⟨q, hq, hqk⟩
          exact ⟨q, Or.inr hq, hqk⟩
        · rintro ⟨q, hq | hq, hqk⟩
          · exact absurd (hq ▸ hqk) hp
          · exact ⟨q, hq, hqk⟩

theorem indexMapInsert_key_mem (m : List (String × MqttHandler)) (k : String)
    (v : MqttHandler) (t : String) :
    (∃ p ∈ indexMapInsert m k v, p.1 = t) ↔ (∃ p ∈ m, p.1 = t) ∨ k = t := by
  by_cases hkt : k = t
  · subst hkt
    constructor
    · intro _
      exact Or.inr rfl
    · intro _
      exact (indexMapGet_isSome_iff _ _).mp ⟨v, indexMapGet_insert_self m k v⟩
  · rw [← indexMapGet_isSome_iff, ← indexMapGet_isSome_iff,
      indexMapGet_insert_other m k t v (fun h => hkt h.symm)]
    simp [hkt]

/-! ### Lemmas about the router operations -/

theorem add_route_routes (r : MqttRouter) (accepts : String → Bool)
    (h : MqttHandler) :
    ((r.add_route accepts h).1).routes = indexMapInsert r.routes h.path h := rfl

theorem registerFrom_cons (accepts : String → Bool) (r : MqttRouter)
    (h : MqttHandler) (t : List MqttHandler) :
    registerFrom accepts r (h :: t)
      = registerFrom accepts ((r.add_route accepts h).1) t := rfl

theorem add_route_fresh_keys (accepts : String → Bool) (r : MqttRouter)
    (h0 : MqttHandler) (t : List MqttHandler)
    (hfresh : ∀ h ∈ h0 :: t, h.path ∉ r.routes.map Prod.fst)
    (hnd0 : h0.path ∉ t.map MqttHandler.path) :
    ∀ h ∈ t, h.path ∉ ((r.add_route accepts h0).1).routes.map Prod.fst := by
  intro h hh hmem
  have h0fresh : h0.path ∉ r.routes.map Prod.fst :=
    hfresh h0 (List.mem_cons_self _ _)
  rw [add_route_routes, indexMapInsert_keys, if_neg h0fresh] at hmem
  rcases List.mem_append.mp hmem with hmem | hmem
  · exact hfresh h (List.mem_cons_of_mem _ hh) hmem
  · rw [List.mem_singleton] at hmem
    have hmm : h.path ∈ t.map MqttHandler.path := List.mem_map_of_mem _ hh
    rw [hmem] at hmm
    exact hnd0 hmm

theorem registerFrom_get_absent (accepts : String → Bool)
    (hs : List MqttHandler) :
    ∀ (r : MqttRouter) (k : String), k ∉ hs.map MqttHandler.path →
      indexMapGet (registerFrom accepts r hs).routes k
        = indexMapGet r.routes k := by
  induction hs with
  | nil =>
      intro r k _
      rfl
  | cons h t ih =>
      intro r k hk
      simp only [List.map_cons, List.mem_cons] at hk
      push_neg at hk
      rw [registerFrom_cons, ih _ k hk.2, add_route_routes]
      exact indexMapGet_insert_other r.routes h.path k h hk.1

theorem registerFrom_get_mem (accepts : String → Bool)
    (hs : List MqttHandler) :
    ∀ (r : MqttRouter), (hs.map MqttHandler.path).Nodup →
      (∀ h ∈ hs, h.path ∉ r.routes.map Prod.fst) →
      ∀ h ∈ hs,
        indexMapGet (registerFrom accepts r hs).routes h.path = some h := by
  induction hs with
  | nil =>
      intro r _ _ h hh
      cases hh
  | cons h0 t ih =>
      intro r hnd hfresh h hh
      simp only [List.map_cons, List.nodup_cons] at hnd
      rcases List.mem_cons.mp hh with rfl | hht
      · rw [registerFrom_cons, registerFrom_get_absent accepts t _ h.path hnd.1,
          add_route_routes]
        exact indexMapGet_insert_self r.routes h.path h
      · rw [registerFrom_cons]
        exact ih _ hnd.2 (add_route_fresh_keys accepts r h0 t hfresh hnd.1) h hht

theorem registerFrom_length (accepts : String → Bool)
    (hs : List MqttHandler) :
    ∀ (r : MqttRouter), (hs.map MqttHandler.path).Nodup →
      (∀ h ∈ hs, h.path ∉ r.routes.map Prod.fst) →
      (registerFrom accepts r hs).routes.length
        = r.routes.length + hs.length := by
  induction hs with
  | nil =>
      intro r _ _
      simp [registerFrom]
  | cons h0 t ih =>
      intro r hnd hfresh
      simp only [List.map_cons, List.nodup_cons] at hnd
      have h0fresh : h0.path ∉ r.routes.map Prod.fst :=
        hfresh h0 (List.mem_cons_self _ _)
      rw [registerFrom_cons,
        ih _ hnd.2 (add_route_fresh_keys accepts r h0 t hfresh hnd.1),
        add_route_routes, indexMapInsert_length_absent r.routes h0.path h0 h0fresh]
      simp [Nat.add_assoc, Nat.add_comm 1 t.length]

theorem registerFrom_key_mem (accepts : String → Bool)
    (hs : List MqttHandler) :
    ∀ (r : MqttRouter) (t : String),
      (∃ p ∈ (registerFrom accepts r hs).routes, p.1 = t)
        ↔ (∃ p ∈ r.routes, p.1 = t) ∨ (∃ h ∈ hs, h.path = t) := by
  induction hs with
  | nil =>
      intro r t
      simp [registerFrom]
  | cons h0 rest ih =>
      intro r t
      rw [registerFrom_cons, ih ((r.add_route accepts h0).1) t,
        add_route_routes, indexMapInsert_key_mem]
      constructor
      · rintro ((hp | hk) | ⟨h, hh, ht⟩)
        · exact Or.inl hp
        · exact Or.inr ⟨h0, List.mem_cons_self _ _, hk⟩
        · exact Or.inr ⟨h, List.mem_cons_of_mem _ hh, ht⟩
      · rintro (hp | ⟨h, hh, ht⟩)
        · exact Or.inl (Or.inl hp)
        · rcases List.mem_cons.mp hh with rfl | hh
          · exact Or.inl (Or.inr ht)
          · exact Or.inr ⟨h, hh, ht⟩

theorem handle_request_invocation (r : MqttRouter) (t : String) :
    (∃ e ∈ r.handle_request t, e.isHandlerCall = true)
      ↔ ∃ p ∈ r.routes, p.1 = t := by
  rw [← indexMapGet_isSome_iff]
  unfold MqttRouter.handle_request
  cases hg : indexMapGet r.routes t with
  | none => simp [DispatchEffect.isHandlerCall]
  | some h => simp [DispatchEffect.isHandlerCall]

/-! ### Lemmas about the poll loop -/

theorem mainLoopStep_terminated (s : LoopState) (pr : PollResult)
    (h : s.status = LoopStatus.terminated) : mainLoopStep s pr = s := by
  unfold mainLoopStep
  rw [h]

theorem runLoop_terminated (evs : List PollResult) :
    ∀ (s : LoopState), s.status = LoopStatus.terminated → runLoop s evs = s := by
  induction evs with
  | nil =>
      intro s _
      rfl
  | cons ev rest ih =>
      intro s h
      show runLoop (mainLoopStep s ev) rest = s
      rw [mainLoopStep_terminated s ev h]
      exact ih s h

/-! ### Claim theorems -/

/-- Claim C1: on a router with a handler H registered at topic
hello/world, `handle_request` on hello/world invokes H exactly once (its
trace is the single invocation of H), while `handle_request` on any topic
u with no registered handler invokes no handler and performs only the
`No route found` diagnostic notice; that branch has no error or abort
effect. -/
theorem c1_dispatch_correct (H : MqttHandler) (accepts : String → Bool)
    (u : String) (hH : H.path = "hello/world") (hu : u ≠ "hello/world") :
    ((MqttRouter.new.add_route accepts H).1.handle_request "hello/world"
        = [DispatchEffect.invoked H.hid H.callActions])
    ∧ invocationsOf
        ((MqttRouter.new.add_route accepts H).1.handle_request "hello/world")
        = [H.hid]
    ∧ ((MqttRouter.new.add_route accepts H).1.handle_request u
        = [DispatchEffect.noRouteNotice u])
    ∧ invocationsOf ((MqttRouter.new.add_route accepts H).1.handle_request u)
        = [] := by
  have hr : (MqttRouter.new.add_route accepts H).1.routes = [(H.path, H)] := rfl
  have hne : ¬ ("hello/world" : String) = u := fun hh => hu hh.symm
  refine ⟨?_, ?_, ?_, ?_⟩ <;>
    simp [MqttRouter.handle_request, hr, indexMapGet, hH, hne, invocationsOf]

/-- Witness for C1: the shipped handler at the scenario topics. -/
theorem c1_dispatch_correct_witness :
    HelloHandler.path = "hello/world"
    ∧ ("unknown/topic" : String) ≠ "hello/world"
    ∧ (((MqttRouter.new.add_route (fun _ => true) HelloHandler).1.handle_request
          "hello/world"
        = [DispatchEffect.invoked HelloHandler.hid HelloHandler.callActions])
      ∧ invocationsOf
          ((MqttRouter.new.add_route (fun _ => true) HelloHandler).1.handle_request
            "hello/world")
          = [HelloHandler.hid]
      ∧ (((MqttRouter.new.add_route (fun _ => true) HelloHandler).1.handle_request
            "unknown/topic")
          = [DispatchEffect.noRouteNotice "unknown/topic"])
      ∧ invocationsOf
          ((MqttRouter.new.add_route (fun _ => true) HelloHandler).1.handle_request
            "unknown/topic")
          = []) :=
  ⟨rfl, by decide,
    c1_dispatch_correct HelloHandler (fun _ => true) "unknown/topic" rfl (by decide)⟩

/-- Claim C4: registering h1 and then h2 for the same topic t leaves the
route table mapping t to h2 only (every entry whose key is t holds h2),
and a subsequent dispatch to t invokes only h2: last write wins. -/
theorem c4_overwrite_last_wins (accepts : String → Bool) (r : MqttRouter)
    (h1 h2 : MqttHandler) (t : String) (p : String × MqttHandler)
    (hnd : (r.routes.map Prod.fst).Nodup) (h1p : h1.path = t)
    (h2p : h2.path = t)
    (hp : p ∈ ((((r.add_route accepts h1).1).add_route accepts h2).1).routes)
    (hpt : p.1 = t) :
    indexMapGet (((((r.add_route accepts h1).1).add_route accepts h2).1).routes) t
      = some h2
    ∧ p.2 = h2
    ∧ ((((r.add_route accepts h1).1).add_route accepts h2).1).handle_request t
        = [DispatchEffect.invoked h2.hid h2.callActions] := by
  have hroutes : ((((r.add_route accepts h1).1).add_route accepts h2).1).routes
      = indexMapInsert (indexMapInsert r.routes t h1) t h2 := by
    rw [add_route_routes, add_route_routes, h1p, h2p]
  have hget : indexMapGet (indexMapInsert (indexMapInsert r.routes t h1) t h2) t
      = some h2 := indexMapGet_insert_self _ _ _
  have hnd1 : ((indexMapInsert r.routes t h1).map Prod.fst).Nodup :=
    indexMapInsert_keys_nodup _ _ _ hnd
  refine ⟨by rw [hroutes]; exact hget, ?_, ?_⟩
  · rw [hroutes] at hp
    exact indexMapInsert_unique_value _ _ _ hnd1 p hp hpt
  · unfold MqttRouter.handle_request
    rw [hroutes, hget]

/-- Witness for C4: two handlers registered at the same topic on a fresh
router. -/
theorem c4_overwrite_last_wins_witness :
    ((MqttRouter.new.routes.map Prod.fst).Nodup
      ∧ (mkTestHandler 1 "dup/topic").path = "dup/topic"
      ∧ (mkTestHandler 2 "dup/topic").path = "dup/topic"
      ∧ ("dup/topic", mkTestHandler 2 "dup/topic")
          ∈ ((((MqttRouter.new.add_route (fun _ => true)
                (mkTestHandler 1 "dup/topic")).1).add_route (fun _ => true)
                (mkTestHandler 2 "dup/topic")).1).routes
      ∧ ("dup/topic", mkTestHandler 2 "dup/topic").1 = "dup/topic")
    ∧ (indexMapGet
          (((((MqttRouter.new.add_route (fun _ => true)
              (mkTestHandler 1 "dup/topic")).1).add_route (fun _ => true)
              (mkTestHandler 2 "dup/topic")).1).routes) "dup/topic"
        = some (mkTestHandler 2 "dup/topic")
      ∧ ("dup/topic", mkTestHandler 2 "dup/topic").2 = mkTestHandler 2 "dup/topic"
      ∧ ((((MqttRouter.new.add_route (fun _ => true)
            (mkTestHandler 1 "dup/topic")).1).add_route (fun _ => true)
            (mkTestHandler 2 "dup/topic")).1).handle_request "dup/topic"
          = [DispatchEffect.invoked (mkTestHandler 2 "dup/topic").hid
              (mkTestHandler 2 "dup/topic").callActions]) :=
  ⟨⟨List.nodup_nil, rfl, rfl, List.mem_singleton.mpr rfl, rfl⟩,
    c4_overwrite_last_wins (fun _ => true) MqttRouter.new
      (mkTestHandler 1 "dup/topic") (mkTestHandler 2 "dup/topic") "dup/topic"
      ("dup/topic", mkTestHandler 2 "dup/topic") List.nodup_nil rfl rfl
      (List.mem_singleton.mpr rfl) rfl⟩

/-- Claim C5: registering a list of handlers with pairwise distinct topics
on a fresh router yields a table with exactly one entry per handler, and
each registered topic is mapped to the handler registered for it. -/
theorem c5_registration_determinism (accepts : String → Bool)
    (hs : List MqttHandler) (h : MqttHandler)
    (hnd : (hs.map MqttHandler.path).Nodup) (hmem : h ∈ hs) :
    (registerAll accepts hs).routes.length = hs.length
    ∧ indexMapGet (registerAll accepts hs).routes h.path = some h := by
  have hfresh : ∀ h' ∈ hs, h'.path ∉ (MqttRouter.new).routes.map Prod.fst := by
    intro h' _ hmem'
    simp [MqttRouter.new] at hmem'
  constructor
  · rw [registerAll, registerFrom_length accepts hs MqttRouter.new hnd hfresh]
    simp [MqttRouter.new]
  · rw [registerAll]
    exact registerFrom_get_mem accepts hs MqttRouter.new hnd hfresh h hmem

/-- Witness for C5: two handlers with distinct topics. -/
theorem c5_registration_determinism_witness :
    (([mkTestHandler 1 "topic/a",
        mkTestHandler 2 "topic/b"].map MqttHandler.path).Nodup
      ∧ mkTestHandler 1 "topic/a"
          ∈ [mkTestHandler 1 "topic/a", mkTestHandler 2 "topic/b"])
    ∧ ((registerAll (fun _ => true)
          [mkTestHandler 1 "topic/a", mkTestHandler 2 "topic/b"]).routes.length
        = ([mkTestHandler 1 "topic/a", mkTestHandler 2 "topic/b"] :
            List MqttHandler).length
      ∧ indexMapGet (registerAll (fun _ => true)
          [mkTestHandler 1 "topic/a", mkTestHandler 2 "topic/b"]).routes
          (mkTestHandler 1 "topic/a").path
        = some (mkTestHandler 1 "topic/a")) :=
  ⟨⟨by decide, List.mem_cons_self _ _⟩,
    c5_registration_determinism (fun _ => true)
      [mkTestHandler 1 "topic/a", mkTestHandler 2 "topic/b"]
      (mkTestHandler 1 "topic/a") (by decide) (List.mem_cons_self _ _)⟩

/-- Claim C7 counterexample: with a broker that rejects every
subscription, registering the shipped handler makes the handler's
subscribe body call `unwrap` on the rejected client subscribe and panic:
the subscribe outcome recorded by `add_route` is `none` (a crash), so a
subscribe failure is not merely logged, and `add_route` itself returns no
success/failure value that setup could inspect. -/
theorem c7_subscribe_failure_panics :
    (MqttRouter.new.add_route (fun _ => false) HelloHandler).2 = none := rfl

/-- Claim C7 as amended: `add_route` inserts `(handler.path(), handler)`
into the route table and then invokes the handler's subscribe body,
discarding its value (it returns no success/failure indication); for the
shipped handler the subscribe body returns normally exactly when the
broker accepts the hello/world subscription, and panics otherwise; the
insert precedes the subscribe call, so the route is registered in the
table whatever the subscribe outcome is. -/
theorem c7_register_inserts_then_subscribes (accepts : String → Bool)
    (r : MqttRouter) (h : MqttHandler) :
    indexMapGet ((r.add_route accepts h).1).routes h.path = some h
    ∧ (r.add_route accepts h).2 = h.subscribeRun accepts
    ∧ ((MqttRouter.new.add_route accepts HelloHandler).2
        = if accepts "hello/world" then
            some [ClientAction.subscribe "hello/world" QoS.AtMostOnce]
          else none)
    ∧ indexMapGet ((MqttRouter.new.add_route accepts HelloHandler).1).routes
        "hello/world" = some HelloHandler :=
  ⟨indexMapGet_insert_self r.routes h.path h, rfl, rfl, rfl⟩

/-- Claim C10: re-registering a topic already present in the table
replaces the value in place: the ordered key list (iteration order over
topics) is unchanged, the topic now maps to the new handler, and every
other topic's binding is untouched. -/
theorem c10_overwrite_in_place (accepts : String → Bool) (r : MqttRouter)
    (h : MqttHandler) (k : String)
    (hmem : h.path ∈ r.routes.map Prod.fst) (hk : k ≠ h.path) :
    (((r.add_route accepts h).1).routes.map Prod.fst = r.routes.map Prod.fst)
    ∧ indexMapGet ((r.add_route accepts h).1).routes h.path = some h
    ∧ indexMapGet ((r.add_route accepts h).1).routes k
        = indexMapGet r.routes k := by
  rw [add_route_routes]
  exact ⟨indexMapInsert_keys_present _ _ _ hmem,
    indexMapGet_insert_self _ _ _,
    indexMapGet_insert_other _ _ _ _ hk⟩

/-- Witness for C10: overwriting the only registered topic of a
one-entry router while probing a different key. -/
theorem c10_overwrite_in_place_witness :
    ((mkTestHandler 2 "dup/topic").path
        ∈ ((MqttRouter.new.add_route (fun _ => true)
            (mkTestHandler 1 "dup/topic")).1).routes.map Prod.fst
      ∧ ("other/topic" : String) ≠ (mkTestHandler 2 "dup/topic").path)
    ∧ ((((((MqttRouter.new.add_route (fun _ => true)
            (mkTestHandler 1 "dup/topic")).1).add_route (fun _ => true)
            (mkTestHandler 2 "dup/topic")).1).routes.map Prod.fst
        = ((MqttRouter.new.add_route (fun _ => true)
            (mkTestHandler 1 "dup/topic")).1).routes.map Prod.fst)
      ∧ indexMapGet ((((MqttRouter.new.add_route (fun _ => true)
            (mkTestHandler 1 "dup/topic")).1).add_route (fun _ => true)
            (mkTestHandler 2 "dup/topic")).1).routes
            (mkTestHandler 2 "dup/topic").path
          = some (mkTestHandler 2 "dup/topic")
      ∧ indexMapGet ((((MqttRouter.new.add_route (fun _ => true)
            (mkTestHandler 1 "dup/topic")).1).add_route (fun _ => true)
            (mkTestHandler 2 "dup/topic")).1).routes "other/topic"
          = indexMapGet ((MqttRouter.new.add_route (fun _ => true)
            (mkTestHandler 1 "dup/topic")).1).routes "other/topic") :=
  ⟨⟨by decide, by decide⟩,
    c10_overwrite_in_place (fun _ => true)
      (MqttRouter.new.add_route (fun _ => true) (mkTestHandler 1 "dup/topic")).1
      (mkTestHandler 2 "dup/topic") "other/topic" (by decide) (by decide)⟩

/-- Claim C8: dispatch never modifies the route table: completing any
spawned dispatch unit leaves the loop state's router (and every
topic-to-handler binding) unchanged, and no poll-loop step changes the
router either, so the table is read-only once the loop runs. -/
theorem c8_dispatch_read_only (s : LoopState) (i : Nat) (pr : PollResult)
    (t : String) :
    (completeTask s i).router = s.router
    ∧ (mainLoopStep s pr).router = s.router
    ∧ indexMapGet ((completeTask s i).router).routes t
        = indexMapGet s.router.routes t := by
  have hc : (completeTask s i).router = s.router := by
    rcases htask : s.tasks[i]? with _ | tk
    · simp only [completeTask, htask]
    · rcases hres : tk.result with _ | tr
      · simp only [completeTask, htask, hres]
      · simp only [completeTask, htask, hres]
  refine ⟨hc, ?_, by rw [hc]⟩
  obtain ⟨ro, ta, st, ec⟩ := s
  cases st
  · rcases pr with e | m
    · cases e <;> rfl
    · rfl
  · rfl

/-- Claim C9: topic matching in dispatch is exact string equality: on a
router built by registering the handlers `hs`, `handle_request t` invokes
a handler if and only if some registered handler's path equals `t`;
in particular no wildcard or partial-segment matching happens in the
router. -/
theorem c9_exact_match_dispatch (accepts : String → Bool)
    (hs : List MqttHandler) (t : String) :
    (∃ e ∈ (registerAll accepts hs).handle_request t, e.isHandlerCall = true)
      ↔ ∃ h ∈ hs, h.path = t := by
  rw [handle_request_invocation, registerAll,
    registerFrom_key_mem accepts hs MqttRouter.new t]
  simp [MqttRouter.new]

/-- Claim C2: on a decoded inbound message the loop spawns the dispatch
for its topic as a pending task and keeps polling at once: the step
appends a not-yet-completed task and stays in the polling state, and a
second inbound message is accepted and spawned while the first task is
still not completed. -/
theorem c2_loop_fire_and_forget (s : LoopState) (t1 p1 t2 p2 : String)
    (hs : s.status = LoopStatus.polling) :
    (mainLoopStep s (PollResult.ok (RumqttEvent.incomingPublish t1 p1))).status
        = LoopStatus.polling
    ∧ (mainLoopStep s (PollResult.ok (RumqttEvent.incomingPublish t1 p1))).tasks
        = s.tasks ++ [⟨t1, none⟩]
    ∧ (mainLoopStep
          (mainLoopStep s (PollResult.ok (RumqttEvent.incomingPublish t1 p1)))
          (PollResult.ok (RumqttEvent.incomingPublish t2 p2))).status
        = LoopStatus.polling
    ∧ (mainLoopStep
          (mainLoopStep s (PollResult.ok (RumqttEvent.incomingPublish t1 p1)))
          (PollResult.ok (RumqttEvent.incomingPublish t2 p2))).tasks
        = s.tasks ++ [⟨t1, none⟩, ⟨t2, none⟩] := by
  obtain ⟨ro, ta, st, ec⟩ := s
  cases st
  · refine ⟨rfl, rfl, rfl, ?_⟩
    simp [mainLoopStep]
  · cases hs

/-- Witness for C2: two inbound messages on the state right after setup. -/
theorem c2_loop_fire_and_forget_witness :
    mainInitialState.status = LoopStatus.polling
    ∧ ((mainLoopStep mainInitialState
          (PollResult.ok (RumqttEvent.incomingPublish "topic/a" "p1"))).status
        = LoopStatus.polling
      ∧ (mainLoopStep mainInitialState
          (PollResult.ok (RumqttEvent.incomingPublish "topic/a" "p1"))).tasks
        = mainInitialState.tasks ++ [⟨"topic/a", none⟩]
      ∧ (mainLoopStep
            (mainLoopStep mainInitialState
              (PollResult.ok (RumqttEvent.incomingPublish "topic/a" "p1")))
            (PollResult.ok (RumqttEvent.incomingPublish "topic/b" "p2"))).status
        = LoopStatus.polling
      ∧ (mainLoopStep
            (mainLoopStep mainInitialState
              (PollResult.ok (RumqttEvent.incomingPublish "topic/a" "p1")))
            (PollResult.ok (RumqttEvent.incomingPublish "topic/b" "p2"))).tasks
        = mainInitialState.tasks ++ [⟨"topic/a", none⟩, ⟨"topic/b", none⟩]) :=
  ⟨rfl, c2_loop_fire_and_forget mainInitialState "topic/a" "p1" "topic/b" "p2" rfl⟩

/-- Claim C3: a connection-level poll failure terminates the loop with no
further event processed (whatever was still queued is ignored and the
state is otherwise unchanged), `main` returns `Ok(())` so the process
exits with code 0, and the terminated state is absorbing. -/
theorem c3_connection_error_fatal (s s' : LoopState) (m : String)
    (rest evs : List PollResult) (hs : s.status = LoopStatus.polling)
    (hs' : s'.status = LoopStatus.terminated) :
    runLoop s (PollResult.err m :: rest)
      = { s with status := LoopStatus.terminated, exitCode := some 0 }
    ∧ runLoop s' evs = s' := by
  constructor
  · show runLoop (mainLoopStep s (PollResult.err m)) rest = _
    have hstep : mainLoopStep s (PollResult.err m)
        = { s with status := LoopStatus.terminated, exitCode := some 0 } := by
      obtain ⟨ro, ta, st, ec⟩ := s
      cases st
      · rfl
      · cases hs
    rw [hstep]
    exact runLoop_terminated rest _ rfl
  · exact runLoop_terminated evs s' hs'

/-- Witness for C3: an error fed to the freshly set-up loop with two
further events still queued. -/
theorem c3_connection_error_fatal_witness :
    mainInitialState.status = LoopStatus.polling
    ∧ ({ mainInitialState with
          status := LoopStatus.terminated
          exitCode := some 0 } : LoopState).status = LoopStatus.terminated
    ∧ (runLoop mainInitialState
        (PollResult.err "broker gone"
          :: [PollResult.ok (RumqttEvent.incomingPublish "topic/a" "p1"),
              PollResult.ok RumqttEvent.otherEvent])
        = { mainInitialState with
            status := LoopStatus.terminated
            exitCode := some 0 }
      ∧ runLoop
          { mainInitialState with
            status := LoopStatus.terminated
            exitCode := some 0 }
          [PollResult.ok (RumqttEvent.incomingPublish "topic/a" "p1"),
            PollResult.ok RumqttEvent.otherEvent]
        = { mainInitialState with
            status := LoopStatus.terminated
            exitCode := some 0 }) :=
  ⟨rfl, rfl,
    c3_connection_error_fatal mainInitialState
      { mainInitialState with
        status := LoopStatus.terminated
        exitCode := some 0 }
      "broker gone"
      [PollResult.ok (RumqttEvent.incomingPublish "topic/a" "p1"),
        PollResult.ok RumqttEvent.otherEvent]
      [PollResult.ok (RumqttEvent.incomingPublish "topic/a" "p1"),
        PollResult.ok RumqttEvent.otherEvent]
      rfl rfl⟩

/-- Claim C6: an inbound message on hello/world with any payload, pushed
through the loop and its spawned dispatch unit, makes the echo handler
run exactly once, and its trace performs exactly one publish: topic
hello/back, payload Hello back!. -/
theorem c6_echo_handler_publishes (payload : String) :
    (completeTask (mainLoopStep mainInitialState
        (PollResult.ok (RumqttEvent.incomingPublish "hello/world" payload))) 0).tasks
      = [⟨"hello/world",
          some [DispatchEffect.invoked HelloHandler.hid HelloHandler.callActions]⟩]
    ∧ publishesOf [DispatchEffect.invoked HelloHandler.hid HelloHandler.callActions]
      = [ClientAction.publish "hello/back" QoS.AtLeastOnce false "Hello back!"] :=
  ⟨rfl, rfl⟩
